import Mathlib

/-
Verification of the saddlebag-with-pockets front-end components against their
natural-language specification.

The development shallowly embeds the relevant TypeScript code:

* `src/app/components/WoWResults/FullScan/MobileTable.tsx`
  (third segment of SelectDataCenter.tsx in the snapshot): the mobile
  sortable table — its sort comparator, its header-click handler and its
  initial sort-direction state.
* `src/app/components/FFXIVResults/UndercutAlert/Results.tsx`: the
  undercut-alert JSON templates, the clipboard copy handlers and the
  numeric input handlers.
* `src/unnamed/part_001` (the FFXIV FullScan Results table): the global
  fuzzy filter wiring, the CSV export wiring and the column-order reset.

JavaScript values that matter to the embedded code (numbers, strings,
undefined, null, NaN) are embedded as the inductive `JSVal`; a JavaScript
number that can be NaN is embedded as `JSNum := Option Int` with `none`
playing NaN.  Stateful handlers become explicit state-passing functions.
-/

set_option maxRecDepth 8000

namespace Saddlebag

/-! ## JavaScript values -/

/-- A JavaScript value as far as the embedded components inspect one:
a number, NaN (for which `typeof` still answers number), a string, a
boolean, `undefined` or `null`. -/
inductive JSVal where
  | num (x : Int)
  | nan
  | str (s : String)
  | boolV (b : Bool)
  | undefV
  | nullV
deriving DecidableEq, Repr

/-- JavaScript truthiness: `0`, `NaN`, the empty string, `false`,
`undefined` and `null` are falsy, everything else is truthy. -/
def falsy : JSVal → Bool
  | .num x => x == 0
  | .nan => true
  | .str s => s.isEmpty
  | .boolV b => !b
  | .undefV => true
  | .nullV => true

/-- The test `typeof v === 'number'` (true for NaN as well). -/
def isNumberType : JSVal → Bool
  | .num _ => true
  | .nan => true
  | _ => false

/-- The numeric content of a number value (only consulted behind guards
that ensure the value is a non-NaN number). -/
def numOf : JSVal → Int
  | .num x => x
  | _ => 0

/-- A table row: a record of scalar fields, embedded as an association
list from field name to value.  Reading a missing field yields
`undefined`, as in JavaScript. -/
abbrev Row := List (String × JSVal)

/-- `row[key]`: property access on a row, `undefined` when absent. -/
def rowGet (r : Row) (k : String) : JSVal :=
  match r.find? (fun p => p.1 == k) with
  | some p => p.2
  | none => .undefV

/-! ## MobileTable: sort comparator (SelectDataCenter.tsx, MobileTable segment)

Source, `sortedData`:
```
.sort((a, b) => {
  const aValue = a[sortingColumn]
  const bValue = b[sortingColumn]
  if (!aValue || typeof aValue !== 'number') { return 0 }
  if (!bValue || typeof bValue !== 'number') { return 0 }
  return desc ? bValue - aValue : aValue - bValue
})
```
-/

/-- The MobileTable sort comparator, translated clause by clause from the
source above.  Note the guard is JavaScript falsiness (`!aValue`) combined
with a `typeof` test, so the number `0` also short-circuits to `0`. -/
def mobileCmp (descFlag : Bool) (col : String) (a b : Row) : Int :=
  let aValue := rowGet a col
  let bValue := rowGet b col
  if falsy aValue || !isNumberType aValue then 0
  else if falsy bValue || !isNumberType bValue then 0
  else if descFlag then numOf bValue - numOf aValue
  else numOf aValue - numOf bValue

/-- The reading of the guard in the specification: the value is absent
(`undefined` or `null`) or is not a number. -/
def absentOrNonNum (v : JSVal) : Bool :=
  v == .undefV || v == .nullV || !isNumberType v

/-! ## MobileTable: header click and initial sort state -/

/-- A MobileTable column entry (`{ header, columnId }`). -/
structure ColEntry where
  header : String
  columnId : String
deriving DecidableEq, Repr

/-- The MobileTable component state that the header click can see:
`columnSort` (`string | undefined`), the `desc` flag and the current
column list. -/
structure MobileState where
  columnSort : Option String
  desc : Bool
  columns : List ColEntry
deriving DecidableEq, Repr

/-- Clicking the header cell of column `colId`.  In the render, only the
`th` whose `col.columnId === sortingColumn` carries
`onClick={() => setDesc((state) => !state)}`; the other headers have no
click handler. -/
def clickHeader (st : MobileState) (colId : String) : MobileState :=
  if st.columnSort = some colId then { st with desc := !st.desc } else st

/-- One entry of the `sortingOrder` prop (`{ id, desc }`). -/
structure SortEntry where
  id : String
  desc : Bool
deriving DecidableEq, Repr

/-- The initializer `useState<boolean>(sortingOrder[0].desc || true)`.
`sortingOrder[0]` on an empty array is `undefined` and reading `.desc`
of it throws, embedded as `none`; otherwise the stored value is
`entry.desc || true`. -/
def initialDesc : List SortEntry → Option Bool
  | [] => none
  | e :: _ => some (e.desc || true)

/-! ## UndercutAlert Results: state, JSON templates, handlers -/

/-- A JavaScript number that may be NaN: `none` is NaN. -/
abbrev JSNum := Option Int

/-- Rendering a `JSNum` into a template literal (`NaN` prints as NaN). -/
def jsNumText : JSNum → String
  | none => "NaN"
  | some x => toString x

/-- `MAX_HOURS = 24 * 30`. -/
def MAX_HOURS : Int := 24 * 30

/-- The `info` state of the UndercutAlert Results component. -/
structure Info where
  addIds : List String
  removeIds : List String
  sellerIds : List String
  hqOnly : Bool
  ignoreDataAfterHours : JSNum
  ignoreStackSize : JSNum
deriving DecidableEq, Repr

/-- The initial `info` state of `useState`, for a given `sellerId` prop. -/
def initInfo (sellerId : String) : Info :=
  { addIds := []
    removeIds := []
    sellerIds := [sellerId]
    hqOnly := false
    ignoreDataAfterHours := some MAX_HOURS
    ignoreStackSize := some 9999 }

/-- The `jsonData` template literal of Results.tsx, translated chunk by
chunk.  `join(',')` is comma intercalation without spaces, and the
seller ids are individually wrapped in double quotes. -/
def jsonData (info : Info) (homeServer : String) : String :=
  "\x7b\n  \"retainer_names\": [" ++
    String.intercalate "," (info.sellerIds.map (fun id => "\"" ++ id ++ "\"")) ++
  "],\n  \"server\": \"" ++ homeServer ++
  "\",\n  \"add_ids\": [" ++ String.intercalate "," info.addIds ++
  "],\n  \"ignore_ids\": [" ++ String.intercalate "," info.removeIds ++
  "],\n  \"hq_only\": " ++ (if info.hqOnly then "true" else "false") ++
  ",\n  \"ignore_data_after_hours\": " ++ jsNumText info.ignoreDataAfterHours ++
  ",\n  \"ignore_undercuts_with_quantity_over\": " ++ jsNumText info.ignoreStackSize ++
  "\n\x7d"

/-- The `salesAlertJson` template literal of Results.tsx. -/
def salesAlertJson (info : Info) (homeServer : String) : String :=
  "\x7b\n  \"retainer_names\": [" ++
    String.intercalate "," (info.sellerIds.map (fun id => "\"" ++ id ++ "\"")) ++
  "],\n  \"server\": \"" ++ homeServer ++
  "\",\n  \"item_ids\": []\n\x7d"

/-- A string wrapped in double quotes. -/
def quoteStr (s : String) : String := "\"" ++ s ++ "\""

/-- The undercut-alert text block as the specification describes it: the
fixed template with `retainer_names` holding each seller id in double
quotes joined by commas, `server` holding the home server, `add_ids` and
`ignore_ids` holding the respective id lists joined by commas, `hq_only`
holding the boolean, and the hours and stack-size fields holding their
numeric values. -/
def specUndercutText (info : Info) (homeServer : String) : String :=
  "\x7b\n" ++
  "  \"retainer_names\": [" ++
    String.intercalate "," (info.sellerIds.map (fun id => quoteStr id)) ++ "],\n" ++
  "  \"server\": " ++ quoteStr homeServer ++ ",\n" ++
  "  \"add_ids\": [" ++ String.intercalate "," info.addIds ++ "],\n" ++
  "  \"ignore_ids\": [" ++ String.intercalate "," info.removeIds ++ "],\n" ++
  "  \"hq_only\": " ++ (if info.hqOnly then "true" else "false") ++ ",\n" ++
  "  \"ignore_data_after_hours\": " ++ jsNumText info.ignoreDataAfterHours ++ ",\n" ++
  "  \"ignore_undercuts_with_quantity_over\": " ++
    jsNumText info.ignoreStackSize ++ "\n" ++
  "\x7d"

/-- Accumulate a list of decimal digit characters into an integer. -/
def digitsVal : List Char → Int → Int
  | [], acc => acc
  | c :: cs, acc => digitsVal cs (acc * 10 + ((c.toNat : Int) - 48))

/-- `parseInt(s, 10)`: skip leading whitespace, read an optional sign and
then a run of decimal digits; NaN (`none`) when no digit follows. -/
def parseIntJS (s : String) : JSNum :=
  let t := s.toList.dropWhile (fun c =>
    c == ' ' || c == '\t' || c == '\n' || c == '\r')
  let signAndRest : Int × List Char :=
    match t with
    | '-' :: r => (-1, r)
    | '+' :: r => (1, r)
    | r => (1, r)
  let ds := signAndRest.2.takeWhile Char.isDigit
  if ds.isEmpty then none
  else some (signAndRest.1 * digitsVal ds 0)

/-- `Math.min(a, b)` with `a` possibly NaN: NaN propagates. -/
def jsMin (a : JSNum) (b : Int) : JSNum :=
  a.map (fun x => min x b)

/-- `v > b` for a possibly-NaN `v`: every comparison with NaN is false. -/
def jsGtB (v : JSNum) (b : Int) : Bool :=
  match v with
  | none => false
  | some x => b < x

/-- A change event on one of the two numeric inputs of the UndercutAlert
form, carrying `e.target.value`. -/
inductive UndercutEvent where
  | hoursChange (value : String)
  | stackChange (value : String)

/-- The two `onChange` handlers: the hours input stores
`Math.min(parseInt(e.target.value, 10), MAX_HOURS)`, the stack-size
input stores `parseInt(e.target.value, 10)` unclamped. -/
def undercutStep (st : Info) : UndercutEvent → Info
  | .hoursChange v =>
      { st with ignoreDataAfterHours := jsMin (parseIntJS v) MAX_HOURS }
  | .stackChange v =>
      { st with ignoreStackSize := parseIntJS v }

/-- The `info` state reached from the initial state after a sequence of
change events on the two numeric inputs. -/
def undercutRun (sellerId : String) (evs : List UndercutEvent) : Info :=
  evs.foldl undercutStep (initInfo sellerId)

/-! ## Clipboard copy handlers (SubmitButton onClick in Results.tsx)

Source:
```
if (typeof window !== 'undefined' && typeof document !== 'undefined') {
  if (!window.isSecureContext) { alert('Unable to copy.'); return }
  await navigator.clipboard.writeText(jsonData)
  alert('Copied to clipboard!')
}
```
-/

/-- The browser environment the handler inspects. -/
structure CopyEnv where
  hasWindow : Bool
  hasDocument : Bool
  isSecureContext : Bool
deriving DecidableEq, Repr

/-- What a run of the handler did: nothing, an alert without a clipboard
write, or a clipboard write of `text` followed by an alert. -/
inductive CopyOutcome where
  | noop
  | alerted (message : String)
  | copied (text : String) (message : String)
deriving DecidableEq, Repr

/-- The copy-button click handler.  It is passed the component state it
closes over and returns it untouched (the handler makes no `setInfo` or
`setModal` call), together with the observable outcome. -/
def copyOnClick {σ : Type} (env : CopyEnv) (st : σ) (text : String) :
    σ × CopyOutcome :=
  if env.hasWindow && env.hasDocument then
    if !env.isSecureContext then (st, .alerted "Unable to copy.")
    else (st, .copied text "Copied to clipboard!")
  else (st, .noop)

/-! ## FullScan Results table (src/unnamed/part_001): global filter and CSV -/

/-- The accessor keys of the desktop table columns, in the order of the
`columns` array of part_001.  `getColumnCanGlobalFilter: () => true`
makes every one of them participate in the global filter. -/
def ffColumns : List String :=
  ["real_name", "profit_amount", "avg_ppu", "home_server_price",
   "home_update_time", "ppu", "profit_raw_percent", "sale_rates", "server",
   "stack_size", "update_time", "ROI", "url", "npc_vendor_info", "item_id",
   "regionWeeklyMedianNQ", "regionWeeklyAverageNQ",
   "regionWeeklySalesAmountNQ", "regionWeeklyQuantitySoldNQ",
   "regionWeeklyMedianHQ", "regionWeeklyAverageHQ",
   "regionWeeklySalesAmountHQ", "regionWeeklyQuantitySoldHQ"]

/-- Does the character list `q` occur at the head of `s`? -/
def leadMatch : List Char → List Char → Bool
  | [], _ => true
  | _ :: _, [] => false
  | a :: as, b :: bs => a == b && leadMatch as bs

/-- Does the character list `q` occur anywhere inside `s`? -/
def hasSub (q s : List Char) : Bool :=
  match s with
  | [] => q.isEmpty
  | c :: rest => leadMatch q (c :: rest) || hasSub q rest

/-- The text content match-sorter ranks for a cell value: strings rank as
themselves, numbers as their decimal rendering, other values do not rank. -/
def jsvalText : JSVal → Option String
  | .str s => some s
  | .num x => some (toString x)
  | _ => none

/-- Modelled from the spec: the fuzzy ranking of a cell value against the
filter text (`rankItem` of the external @tanstack/match-sorter-utils
library, called by `fuzzyFilter` in part_001; the library itself is not
part of this repository).  Modelled as a substring containment test on
the stringified value, with the empty query passing every value. -/
def rankPassed (v : JSVal) (q : String) : Bool :=
  if q.isEmpty then true
  else
    match jsvalText v with
    | some s => hasSub q.toList s.toList
    | none => false

/-- `fuzzyFilter` lifted to a whole row: the row passes the global filter
when the ranking of some column value against the filter text passes
(every column is globally filterable in this table). -/
def rowPassesFilter (r : Row) (q : String) : Bool :=
  ffColumns.any (fun c => rankPassed (rowGet r c) q)

/-- The rows the table body renders under global filter text `q`: the
filtered row model keeps exactly the rows some column of which passes. -/
def displayedRows (rows : List Row) (q : String) : List Row :=
  rows.filter (fun r => rowPassesFilter r q)

/-- The data the component hands to `CSVButton`: the source passes the
raw `rows` prop (`<CSVButton data={rows} ... />`), in both the desktop
and the mobile branch. -/
def csvRows (rows : List Row) : List Row := rows

/-! ## MobileTable sortedData: a heap model for the mutation claim

`sortedData` is `data.map((self) => self).sort(cmp)`: `map` allocates a
fresh array holding the same rows and `sort` then permutes that fresh
array in place.  Arrays live on a heap (a list of arrays indexed by
allocation address) so that in-place sorting is an explicit heap update
and the frame property is expressible. -/

/-- A heap of row arrays; an address is an index into the list. -/
abbrev Heap := List (List Row)

/-- Allocate a fresh array on the heap, returning its address. -/
def heapAlloc (h : Heap) (a : List Row) : Heap × Nat :=
  (h ++ [a], h.length)

/-- `data.map((self) => self)`: allocate a fresh array holding the same
row references as the array at `src`. -/
def jsMapSelf (h : Heap) (src : Nat) : Heap × Nat :=
  heapAlloc h (h.getD src [])

/-- The permutation `Array.prototype.sort` produces under the MobileTable
comparator (a stable sort by the comparator). -/
def sortRows (descFlag : Bool) (col : String) (rows : List Row) : List Row :=
  rows.mergeSort (fun a b => mobileCmp descFlag col a b ≤ 0)

/-- `arr.sort(cmp)` sorts the array at address `i` in place. -/
def jsSortInPlace (h : Heap) (i : Nat) (descFlag : Bool) (col : String) : Heap :=
  h.set i (sortRows descFlag col (h.getD i []))

/-- The whole `sortedData` computation: copy with `map`, then sort the
copy in place; the result is the address of the copy. -/
def sortedDataMobile (h : Heap) (dataAddr : Nat) (descFlag : Bool)
    (col : String) : Heap × Nat :=
  let copy := jsMapSelf h dataAddr
  (jsSortInPlace copy.1 copy.2 descFlag col, copy.2)

/-! ## Column-order reset (part_001 with the redux user slice) -/

/-- The slice of the redux store the table reads (`state.user`). -/
structure UserState where
  ffScanSortOrder : List String
deriving DecidableEq, Repr

/-- Modelled from the spec: dispatching `setFFScanOrder(order)` (the
reducer lives in `~/redux/reducers/userSlice`, which is not part of the
source snapshot) replaces the stored `ffScanSortOrder` with `order`. -/
def setFFScanOrder (st : UserState) (order : List String) : UserState :=
  { st with ffScanSortOrder := order }

/-- `handleColumnReset = () => dispatch(setFFScanOrder(defaultSortOrder))`,
with the `defaultSortOrder` constant (defined outside the snapshot in
`~/redux/localStorage/ffScanOrderHelpers`) passed as a parameter. -/
def handleColumnReset (defaultOrd : List String) (st : UserState) : UserState :=
  setFFScanOrder st defaultOrd

/-- The column order the table runs under: `state.columnOrder` of the
`useReactTable` call is wired to `sortOrder = state.user.ffScanSortOrder`. -/
def tableColumnOrder (st : UserState) : List String :=
  st.ffScanSortOrder

/-! ## Theorems -/

/-- C5: clicking a column header toggles sort direction — in the mobile
table, clicking the header of the current sort column flips the
descending flag, and clicking it twice restores the original state
(the toggle is an involution); clicking any other header is a no-op, so
the involution holds for every clicked column. -/
theorem header_click_toggles (st : MobileState) (colId : String) :
    (clickHeader { st with columnSort := some colId } colId).desc = !st.desc
    ∧ clickHeader (clickHeader st colId) colId = st := by
  constructor
  · simp [clickHeader]
  · obtain ⟨cs, d, cols⟩ := st
    by_cases h : cs = some colId
    · simp [clickHeader, h]
    · simp [clickHeader, h]

/-- C6: clicking the Reset table columns button dispatches the default
column order, after which the column order the table runs under equals
that default order, whatever the current order was. -/
theorem reset_restores_default (defaultOrd : List String) (st : UserState) :
    tableColumnOrder (handleColumnReset defaultOrd st) = defaultOrd := rfl

/-- C9: for every non-empty sortingOrder the initial desc state is true
(`sortingOrder[0].desc || true` ignores the desc flag), and on an empty
sortingOrder the unguarded read of `sortingOrder[0].desc` fails. -/
theorem initial_desc_always_true :
    (∀ e rest, initialDesc (e :: rest) = some true)
    ∧ initialDesc [] = none := by
  constructor
  · intro e rest
    simp [initialDesc]
  · rfl

/-- C2: with window and document present, a copy-button click in a
non-secure context alerts Unable to copy. and returns, writing nothing
to the clipboard and leaving the component state untouched; in a secure
context it writes exactly the generated JSON text and alerts
Copied to clipboard!. -/
theorem clipboard_copy_behavior {σ : Type} (st : σ) (info : Info)
    (hs : String) :
    (∀ text, copyOnClick ⟨true, true, false⟩ st text
        = (st, .alerted "Unable to copy."))
    ∧ copyOnClick ⟨true, true, true⟩ st (jsonData info hs)
        = (st, .copied (jsonData info hs) "Copied to clipboard!")
    ∧ copyOnClick ⟨true, true, true⟩ st (salesAlertJson info hs)
        = (st, .copied (salesAlertJson info hs) "Copied to clipboard!") :=
  ⟨fun _ => rfl, rfl, rfl⟩

/-- C8: the undercut-alert JSON text block is exactly the fixed string
template the specification describes, for every component state and home
server. -/
theorem undercut_text_matches_spec (info : Info) (hs : String) :
    jsonData info hs = specUndercutText info hs := by
  apply String.ext
  simp [jsonData, specUndercutText, quoteStr, String.data_append]

/-- The hours bound is preserved by every event: folding any event list
over a state whose hours value does not exceed the bound yields a state
whose hours value does not exceed the bound. -/
theorem hours_bound_foldl (evs : List UndercutEvent) :
    ∀ st : Info, jsGtB st.ignoreDataAfterHours MAX_HOURS = false →
      jsGtB (evs.foldl undercutStep st).ignoreDataAfterHours MAX_HOURS
        = false := by
  induction evs with
  | nil => intro st h; simpa using h
  | cons e rest ih =>
    intro st h
    cases e with
    | hoursChange v =>
      apply ih
      cases hp : parseIntJS v with
      | none => simp [undercutStep, jsMin, jsGtB, hp]
      | some x => simp [undercutStep, jsMin, jsGtB, hp]
    | stackChange v =>
      apply ih
      simpa [undercutStep] using h

/-- C10: after every sequence of change events on the numeric inputs,
the stored hours value never exceeds MAX_HOURS = 720 (the handler clamps
with Math.min and the initial state is 720, so the bound is an
invariant), while the stack-size handler stores the parsed input with no
clamp, e.g. an input of 100000 is stored as 100000 > 9999. -/
theorem hours_never_exceed_max (sellerId : String)
    (evs : List UndercutEvent) :
    jsGtB (undercutRun sellerId evs).ignoreDataAfterHours MAX_HOURS = false
    ∧ (initInfo sellerId).ignoreDataAfterHours = some MAX_HOURS
    ∧ (∀ st v, (undercutStep st (.stackChange v)).ignoreStackSize
        = parseIntJS v)
    ∧ (undercutStep (initInfo sellerId)
        (.stackChange "100000")).ignoreStackSize = some 100000 := by
  refine ⟨?_, rfl, fun st v => rfl, ?_⟩
  · exact hours_bound_foldl evs (initInfo sellerId) rfl
  · rfl

/-- C3 counterexample: both rows hold the present number values 0 and 5
in the sort column, neither is absent or a non-number, yet the
comparator returns 0 instead of the ascending difference 0 - 5, because
the guard tests JavaScript falsiness and the number 0 is falsy. -/
theorem mobile_cmp_zero_cex :
    mobileCmp false "p" [("p", JSVal.num 0)] [("p", JSVal.num 5)] = 0
    ∧ absentOrNonNum (rowGet [("p", JSVal.num 0)] "p") = false
    ∧ absentOrNonNum (rowGet [("p", JSVal.num 5)] "p") = false
    ∧ ¬ (mobileCmp false "p" [("p", JSVal.num 0)] [("p", JSVal.num 5)]
          = numOf (rowGet [("p", JSVal.num 0)] "p")
            - numOf (rowGet [("p", JSVal.num 5)] "p")) := by
  refine ⟨rfl, rfl, rfl, ?_⟩
  decide

/-- C3 amended: the mobile table sort comparator returns 0 whenever
either compared value is falsy (absent, null, NaN, a non-number, or the
number 0); when both values are non-falsy numbers it returns their
difference in the chosen direction. -/
theorem mobile_cmp_amended (descFlag : Bool) (col : String) (a b : Row) :
    ((falsy (rowGet a col) || !isNumberType (rowGet a col)) = true →
        mobileCmp descFlag col a b = 0)
    ∧ ((falsy (rowGet b col) || !isNumberType (rowGet b col)) = true →
        mobileCmp descFlag col a b = 0)
    ∧ (falsy (rowGet a col) = false → isNumberType (rowGet a col) = true →
       falsy (rowGet b col) = false → isNumberType (rowGet b col) = true →
        mobileCmp descFlag col a b =
          if descFlag then numOf (rowGet b col) - numOf (rowGet a col)
          else numOf (rowGet a col) - numOf (rowGet b col)) := by
  refine ⟨?_, ?_, ?_⟩
  · intro h
    simp [mobileCmp, h]
  · intro h
    by_cases ha : (falsy (rowGet a col) || !isNumberType (rowGet a col)) = true
    · simp [mobileCmp, ha]
    · simp [mobileCmp, ha, h]
  · intro h1 h2 h3 h4
    simp [mobileCmp, h1, h2, h3, h4]

/-- A one-row data set whose only populated column is the item name. -/
def cexRow : Row := [("real_name", JSVal.str "apple")]

/-- C1 counterexample: with the one-row data set `cexRow` and the filter
text zzz, the table displays no row at all, yet the CSV export is handed
the full row set, so the exported set differs from the visible set. -/
theorem csv_not_filtered_cex :
    displayedRows [cexRow] "zzz" = []
    ∧ csvRows [cexRow] = [cexRow]
    ∧ csvRows [cexRow] ≠ displayedRows [cexRow] "zzz" := by
  refine ⟨?_, rfl, ?_⟩ <;> decide

/-- C1 amended: the CSV export is always handed the full input row set
(the component passes the raw rows prop to CSVButton), the displayed
rows are a subset of the input rows, and the exported set coincides with
the displayed set exactly when every input row passes the global
filter. -/
theorem csv_gets_all_rows (rows : List Row) (q : String) :
    csvRows rows = rows
    ∧ (∀ r, r ∈ displayedRows rows q → r ∈ rows)
    ∧ (csvRows rows = displayedRows rows q ↔
        ∀ r ∈ rows, rowPassesFilter r q = true) := by
  have h1 : (displayedRows rows q = rows) ↔
      ∀ r ∈ rows, rowPassesFilter r q = true := List.filter_eq_self
  refine ⟨rfl, ?_, ?_⟩
  · intro r hr
    exact List.mem_of_mem_filter hr
  · constructor
    · intro h
      exact h1.mp h.symm
    · intro h
      exact (h1.mpr h).symm

/-- C4: typing in the search box narrows visible rows — for every input
row set and global filter text, the displayed rows are a subset of the
input rows, and a row is displayed exactly when it is an input row for
which the fuzzy ranking of some column value against the filter text
passes. -/
theorem global_filter_narrows (rows : List Row) (q : String) :
    (∀ r, r ∈ displayedRows rows q → r ∈ rows)
    ∧ (∀ r, r ∈ displayedRows rows q ↔
        r ∈ rows ∧ rowPassesFilter r q = true)
    ∧ (∀ r, rowPassesFilter r q = true ↔
        ∃ c ∈ ffColumns, rankPassed (rowGet r c) q = true) := by
  refine ⟨fun r hr => List.mem_of_mem_filter hr, fun r => ?_, fun r => ?_⟩
  · exact List.mem_filter
  · exact List.any_eq_true

/-- C7: the mobile table never mutates the row data it is given — the
`sortedData` computation copies the array with `map` before sorting in
place, so the array at the original address is unchanged afterwards and
the sorted result lives at a different address. -/
theorem sorted_copy_leaves_input (h : Heap) (dataAddr : Nat)
    (descFlag : Bool) (col : String) (hlt : dataAddr < h.length) :
    ((sortedDataMobile h dataAddr descFlag col).1).getD dataAddr []
      = h.getD dataAddr []
    ∧ (sortedDataMobile h dataAddr descFlag col).2 ≠ dataAddr := by
  constructor
  · simp only [sortedDataMobile, jsSortInPlace, jsMapSelf, heapAlloc,
      List.getD_eq_getElem?_getD]
    rw [List.getElem?_set_ne (by omega), List.getElem?_append]
    simp [hlt]
  · simp only [sortedDataMobile, jsMapSelf, heapAlloc]
    omega

/-- C7 witness: a concrete one-array heap satisfying the address bound,
with the frame property evaluated there. -/
theorem sorted_copy_leaves_input_witness :
    (0 : Nat) < ([[[("p", JSVal.num 1)]]] : Heap).length
    ∧ (((sortedDataMobile [[[("p", JSVal.num 1)]]] 0 true "p").1).getD 0 []
        = ([[[("p", JSVal.num 1)]]] : Heap).getD 0 []
      ∧ (sortedDataMobile [[[("p", JSVal.num 1)]]] 0 true "p").2 ≠ 0) :=
  ⟨by decide,
   sorted_copy_leaves_input [[[("p", JSVal.num 1)]]] 0 true "p" (by decide)⟩

end Saddlebag
